import Mathlib

/-!
Verification model of the Mantis tensor core (src/array.rs, src/backend.rs).

An ndarray `ArrayD<f32>` / `ArrayD<f64>` is modelled by its logical view:
a shape together with a total function from multi-indices to values, with
scalars represented exactly as rationals (every concrete value appearing in
the kernels and tests — 0, 1, fills, sums and products of those — is exact
in f32/f64, so no rounding behaviour is lost for the properties below).
Rust panics (an `unwrap()` of `None`/`Err`, `todo!()`, or an ndarray
assertion such as an out-of-range `Axis` or a non-broadcastable shape pair)
are modelled by the `panic` outcome of `PanicOr`.
-/

/-- Outcome of a Rust call that can abort the process: either a normal
return value or a panic. -/
inductive PanicOr (α : Type) where
  | panic : PanicOr α
  | ok (val : α) : PanicOr α

/-- Map over the normal outcome. -/
def PanicOr.map {α β : Type} (f : α → β) : PanicOr α → PanicOr β
  | .panic => .panic
  | .ok a => .ok (f a)

/-- DType from src/lib: the closed set of element types. -/
inductive DType where
  | F32
  | F64
deriving DecidableEq

/-- Logical view of an `ndarray::ArrayD`: a shape plus the element at each
multi-index (values at out-of-range indices are immaterial padding). -/
structure NdArray where
  shape : List Nat
  data : List Nat → ℚ

/-- Index validity as checked by `ArrayBase::get(IxDyn(&index))`: the index
has one coordinate per axis and each coordinate is within its extent. -/
def NdArray.isValidIx (a : NdArray) (ix : List Nat) : Bool :=
  (ix.length == a.shape.length) &&
    (List.zip ix a.shape).all fun p => decide (p.1 < p.2)

/-- `ArrayBase::get`: the element when the index is in range. -/
def NdArray.get (a : NdArray) (ix : List Nat) : Option ℚ :=
  if a.isValidIx ix then some (a.data ix) else none

/-- `Array::from_elem(IxDyn(&shape), v)` (also `zeros`/`ones`). -/
def NdArray.const (shape : List Nat) (v : ℚ) : NdArray :=
  ⟨shape, fun _ => v⟩

/-- Elementwise combination of two same-shaped arrays (the semantics of
ndarray arithmetic on arrays of identical shape). -/
def NdArray.zipApply (f : ℚ → ℚ → ℚ) (a b : NdArray) : NdArray :=
  ⟨a.shape, fun ix => f (a.data ix) (b.data ix)⟩

/-- `ArrayBase::mapv`. -/
def NdArray.mapValues (f : ℚ → ℚ) (a : NdArray) : NdArray :=
  ⟨a.shape, fun ix => f (a.data ix)⟩

/-- All in-range multi-indices of a shape, row-major. -/
def allIndices : List Nat → List (List Nat)
  | [] => [[]]
  | d :: ds => ((List.range d).map fun i => (allIndices ds).map (i :: ·)).flatten

/-- `ArrayBase::sum`: total of all elements. -/
def NdArray.total (a : NdArray) : ℚ :=
  ((allIndices a.shape).map a.data).sum

/-- `ArrayBase::sum_axis(Axis(k))` for `k < ndim`: removes axis `k` and sums
along it.  (The caller models ndarray's panic on `k ≥ ndim` separately.) -/
def NdArray.sumAxis (a : NdArray) (k : Nat) : NdArray :=
  ⟨a.shape.eraseIdx k,
   fun ix =>
     ((List.range (a.shape.getD k 0)).map
       fun j => a.data (ix.take k ++ j :: ix.drop k)).sum⟩

/-- `ArrayBase::reversed_axes`: reverses the axis order, so the element at
index `ix` of the result is the element at the reversed index of `a`. -/
def NdArray.transposeNd (a : NdArray) : NdArray :=
  ⟨a.shape.reverse, fun ix => a.data ix.reverse⟩

/-- 1-d `dot` (both operands of the same length). -/
def NdArray.dot1 (a b : NdArray) : ℚ :=
  ((List.range (a.shape.getD 0 0)).map fun i => a.data [i] * b.data [i]).sum

/-- 2-d `dot` (GEMM) for `a : [M,K]`, `b : [K,N]` with matching inner dim. -/
def NdArray.matmul2 (a b : NdArray) : NdArray :=
  ⟨[a.shape.getD 0 0, b.shape.getD 1 0],
   fun ix =>
     ((List.range (a.shape.getD 1 0)).map
       fun k => a.data [ix.getD 0 0, k] * b.data [k, ix.getD 1 0]).sum⟩

/-- CpuArray from src/array.rs: a dtype-tagged dynamic array. -/
inductive CpuArray where
  | F32Array (arr : NdArray) : CpuArray
  | F64Array (arr : NdArray) : CpuArray

open CpuArray

/-- CpuArray::zeros. -/
def CpuArray.zeros (shape : List Nat) (dtype : DType) : CpuArray :=
  match dtype with
  | DType.F32 => F32Array (NdArray.const shape 0)
  | DType.F64 => F64Array (NdArray.const shape 0)

/-- CpuArray::ones. -/
def CpuArray.ones (shape : List Nat) (dtype : DType) : CpuArray :=
  match dtype with
  | DType.F32 => F32Array (NdArray.const shape 1)
  | DType.F64 => F64Array (NdArray.const shape 1)

/-- CpuArray::fill. -/
def CpuArray.fill (v : ℚ) (shape : List Nat) (dtype : DType) : CpuArray :=
  match dtype with
  | DType.F32 => F32Array (NdArray.const shape v)
  | DType.F64 => F64Array (NdArray.const shape v)

/-- Shared shape of the four elementwise binary kernels of CpuArray: only
the `(F32Array, F32Array)` arm computes; every other dtype pairing returns
`None`.  On the F32 arm the source calls ndarray arithmetic, which combines
elementwise when the shapes agree and otherwise broadcasts or panics; the
claims below only exercise the equal-shape and the dtype-mismatch cases, so
the unequal-shape arm is conservatively modelled as the (possible) panic. -/
def CpuArray.binOp (f : ℚ → ℚ → ℚ) : CpuArray → CpuArray → PanicOr (Option CpuArray)
  | F32Array a, F32Array b =>
      if a.shape = b.shape then .ok (some (F32Array (NdArray.zipApply f a b)))
      else .panic
  | _, _ => .ok none

/-- CpuArray::add. -/
def CpuArray.add : CpuArray → CpuArray → PanicOr (Option CpuArray) :=
  CpuArray.binOp (· + ·)

/-- CpuArray::sub. -/
def CpuArray.sub : CpuArray → CpuArray → PanicOr (Option CpuArray) :=
  CpuArray.binOp (· - ·)

/-- CpuArray::mul. -/
def CpuArray.mul : CpuArray → CpuArray → PanicOr (Option CpuArray) :=
  CpuArray.binOp (· * ·)

/-- CpuArray::div. -/
def CpuArray.div : CpuArray → CpuArray → PanicOr (Option CpuArray) :=
  CpuArray.binOp (· / ·)

/-- CpuArray::matmul, including its buggy guards: both match-arm guards in
the source test `l.ndim()` twice (`l.ndim() == 1 && l.ndim() == 1`, and
likewise for 2), so the rank of `r` is never checked before
`r.clone().into_dimensionality().unwrap()` — a panic when the ranks differ.
`dot` itself panics on a 1-d length mismatch or a 2-d inner-dim mismatch. -/
def CpuArray.matmul : CpuArray → CpuArray → PanicOr (Except String CpuArray)
  | F32Array l, F32Array r =>
      if l.shape.length = 1 then
        if r.shape.length = 1 then
          if l.shape.getD 0 0 = r.shape.getD 0 0 then
            .ok (.ok (F32Array ⟨[1], fun _ => l.dot1 r⟩))
          else .panic
        else .panic
      else if l.shape.length = 2 then
        if r.shape.length = 2 then
          if l.shape.getD 1 0 = r.shape.getD 0 0 then
            .ok (.ok (F32Array (l.matmul2 r)))
          else .panic
        else .panic
      else .ok (.error "Cannot MatMul for the provided data types")
  | _, _ => .ok (.error "Cannot MatMul for the provided data types")

/-- CpuArray::relu. -/
def CpuArray.relu : CpuArray → Except String CpuArray
  | F32Array a => .ok (F32Array (NdArray.mapValues (fun x => max x 0) a))
  | F64Array _ => .error "Cannot ReLU for the provided data types"

/-- The reduction loop of CpuArray::sum: apply `sum_axis` for each already
shifted axis in turn; ndarray panics when an axis is not below the current
rank. -/
def sumLoop : NdArray → List Nat → PanicOr NdArray
  | a, [] => .ok a
  | a, k :: rest =>
      if k < a.shape.length then sumLoop (a.sumAxis k) rest else .panic

/-- CpuArray::sum: empty dims is a full reduction to shape `[1]`; otherwise
the dims are sorted ascending (`axes.sort()`, embedded as an insertion
sort — any ascending sort of naturals yields the same list), shifted by
their position (`value.saturating_sub(i)`, which is exactly truncated
subtraction on Nat), and reduced one axis at a time; F64 arrays take the
catch-all error arm. -/
def CpuArray.sum : CpuArray → List Nat → PanicOr (Except String CpuArray)
  | F32Array a, [] => .ok (.ok (F32Array (NdArray.const [1] a.total)))
  | F32Array a, d :: ds =>
      let axes := List.insertionSort (· ≤ ·) (d :: ds)
      let shifted := axes.enum.map fun p => p.2 - p.1
      (sumLoop a shifted).map fun b => Except.ok (F32Array b)
  | F64Array _, _ => .ok (.error "Not able to sum all fields for data type")

/-- CpuArray::transpose (its F64 error message is the `exp` one, verbatim
from the source). -/
def CpuArray.transpose : CpuArray → Except String CpuArray
  | F32Array a => .ok (F32Array a.transposeNd)
  | F64Array _ => .error "Cannot exp for the provided data types"

/-- CpuArray::get (the source returns `None` for the F64 variant). -/
def CpuArray.get : CpuArray → List Nat → Option ℚ
  | F32Array a, ix => a.get ix
  | F64Array _, _ => none

/-- CpuArray::copy_from, returning the new state of `self`: `assign` on two
F32 arrays of equal shape copies the source elements; on unequal shapes
ndarray broadcasts or panics (modelled as the panic — no claim exercises a
broadcastable unequal pair); every other dtype pairing is a silent no-op. -/
def CpuArray.copy_from : CpuArray → CpuArray → PanicOr CpuArray
  | F32Array a, F32Array b =>
      if a.shape = b.shape then .ok (F32Array ⟨a.shape, b.data⟩)
      else .panic
  | s, _ => .ok s

/-- CpuArray::shape. -/
def CpuArray.shape : CpuArray → List Nat
  | F32Array a => a.shape
  | F64Array a => a.shape

/-- BackendData from src/backend.rs: backend-tagged payload; `Metal` is a
bare reserved tag wrapping no array. -/
inductive BackendData where
  | Cpu (arr : CpuArray) : BackendData
  | Metal : BackendData

open BackendData

/-- BackendData::zeros: allocates on the tag of `self`. -/
def BackendData.zeros : BackendData → List Nat → DType → BackendData
  | Cpu _, shape, dtype => Cpu (CpuArray.zeros shape dtype)
  | Metal, _, _ => Metal

/-- BackendData::ones — the source body calls `CpuArray::zeros`, not
`CpuArray::ones`. -/
def BackendData.ones : BackendData → List Nat → DType → BackendData
  | Cpu _, shape, dtype => Cpu (CpuArray.zeros shape dtype)
  | Metal, _, _ => Metal

/-- Shared shape of the four elementwise dispatchers: the Cpu × Cpu arm
calls the CpuArray kernel and `.unwrap()`s its Option — a panic whenever
the kernel returns `None` (any non-F32×F32 dtype pairing); every other
backend pairing yields `None`. -/
def BackendData.liftBin (k : CpuArray → CpuArray → PanicOr (Option CpuArray)) :
    BackendData → BackendData → PanicOr (Option BackendData)
  | Cpu l, Cpu r =>
      match k l r with
      | .panic => .panic
      | .ok none => .panic
      | .ok (some x) => .ok (some (Cpu x))
  | _, _ => .ok none

/-- BackendData::add. -/
def BackendData.add : BackendData → BackendData → PanicOr (Option BackendData) :=
  BackendData.liftBin CpuArray.add

/-- BackendData::sub. -/
def BackendData.sub : BackendData → BackendData → PanicOr (Option BackendData) :=
  BackendData.liftBin CpuArray.sub

/-- BackendData::mul. -/
def BackendData.mul : BackendData → BackendData → PanicOr (Option BackendData) :=
  BackendData.liftBin CpuArray.mul

/-- BackendData::div. -/
def BackendData.div : BackendData → BackendData → PanicOr (Option BackendData) :=
  BackendData.liftBin CpuArray.div

/-- BackendData::matmul. -/
def BackendData.matmul : BackendData → BackendData → PanicOr (Except String BackendData)
  | Cpu l, Cpu r => (CpuArray.matmul l r).map (Except.map Cpu)
  | _, _ => .ok (.error "Could not perform MatMul for this backend type.")

/-- BackendData::relu. -/
def BackendData.relu : BackendData → Except String BackendData
  | Cpu t => (CpuArray.relu t).map Cpu
  | Metal => .error "Could not calculate ReLU for provided backend type"

/-- BackendData::exp — in the source the `Cpu` forwarding arm is commented
out, leaving only the catch-all error arm, so every input errors. -/
def BackendData.exp : BackendData → Except String BackendData :=
  fun _ => .error "Could not calculate ReLU for provided backend type"

/-- BackendData::sum is `todo!()` in the source: it panics on every input. -/
def BackendData.sum : BackendData → List Nat → PanicOr (Except String BackendData) :=
  fun _ _ => .panic

/-- BackendData::transpose. -/
def BackendData.transpose : BackendData → Except String BackendData
  | Cpu t => (CpuArray.transpose t).map Cpu
  | Metal => .error "Could not transpose for provided backend type"

/-- BackendData::shape: delegates for Cpu, empty vector otherwise. -/
def BackendData.shape : BackendData → List Nat
  | Cpu t => t.shape
  | Metal => []

/-- BackendData::get. -/
def BackendData.get : BackendData → List Nat → Option ℚ
  | Cpu a, ix => a.get ix
  | Metal, _ => none

/-- BackendData::copy_from, returning the new state of `self`. -/
def BackendData.copy_from : BackendData → BackendData → PanicOr BackendData
  | Cpu a, Cpu b => (CpuArray.copy_from a b).map Cpu
  | s, _ => .ok s

/-- Shape of a (possibly panicking, possibly failing) CpuArray reduction
result — an observer used to state shape facts about CpuArray::sum. -/
def sumShapes (c : CpuArray) (dims : List Nat) : PanicOr (Except String (List Nat)) :=
  (c.sum dims).map (Except.map CpuArray.shape)

/-- Rank of a CpuArray reduction result. -/
def sumRank (c : CpuArray) (dims : List Nat) : PanicOr (Except String Nat) :=
  (c.sum dims).map (Except.map fun r => r.shape.length)

/-- Position-shifted view of a sorted axis list: the axis at position `i`
of the list is decremented by `i` (truncated subtraction), matching the
enumerate-and-saturating-subtract step of CpuArray::sum. -/
def shiftFrom : Nat → List Nat → List Nat
  | _, [] => []
  | i, x :: xs => (x - i) :: shiftFrom (i + 1) xs

/-- Claim C10: BackendData::shape is total over every variant: on Cpu it
delegates to the wrapped CpuArray's shape, and on the kernel-less Metal
variant it returns the empty vector (rank 0) rather than failing. -/
theorem backendData_shape_total (c : CpuArray) :
    BackendData.shape (Cpu c) = c.shape ∧ BackendData.shape Metal = [] :=
  ⟨rfl, rfl⟩

/-- Claim C4 (divergence witness): on a Cpu-tagged value,
BackendData::ones produces the all-zeros array — its body calls
CpuArray::zeros — so the element of ones([1], F32) at index 0 is 0, not 1. -/
theorem backend_ones_is_zeros :
    BackendData.ones (Cpu (F32Array (NdArray.const [] 0))) [1] DType.F32
      = Cpu (CpuArray.zeros [1] DType.F32) ∧
    BackendData.get
      (BackendData.ones (Cpu (F32Array (NdArray.const [] 0))) [1] DType.F32) [0]
      = some 0 :=
  ⟨rfl, rfl⟩

/-- Claim C5 (divergence witness): an error condition reachable through the
public surface aborts the process: BackendData::add on two Cpu arrays of
different dtypes calls the CpuArray kernel, which returns None, and then
unwraps it — a panic. -/
theorem backend_add_dtype_mismatch_panics :
    BackendData.add (Cpu (F32Array (NdArray.const [1] 0)))
      (Cpu (F64Array (NdArray.const [1] 0))) = .panic :=
  rfl

/-- Claim C8 (divergence witness): with all-Cpu operands, exp does not
forward to the CpuArray kernel (its forwarding arm is commented out, so it
returns the catch-all error), and sum does not forward either (it is
todo!(), a panic). -/
theorem backend_exp_sum_do_not_forward :
    BackendData.exp (Cpu (F32Array (NdArray.const [1] 0)))
      = .error "Could not calculate ReLU for provided backend type" ∧
    BackendData.sum (Cpu (F32Array (NdArray.const [1] 0))) [] = .panic :=
  ⟨rfl, rfl⟩

/-- Claim C7 (divergence witness): CpuArray::copy_from on a dtype mismatch
(F32 destination, F64 source) returns normally with the destination
unchanged — no error is reported (the function has no error channel at
all). -/
theorem copy_from_dtype_mismatch_is_silent :
    CpuArray.copy_from (F32Array (NdArray.const [2] 0)) (F64Array (NdArray.const [2] 1))
      = .ok (F32Array (NdArray.const [2] 0)) :=
  rfl

/-- Claim C2 (divergence witness): matmul does not reject every bad shape
pair with an error: a rank-1 by rank-2 pairing slips past the buggy guard
(which tests the left rank twice) and panics in
into_dimensionality().unwrap(), and a rank-1 by rank-1 pairing of unequal
lengths panics inside dot. -/
theorem matmul_bad_shapes_panic :
    CpuArray.matmul (F32Array (NdArray.const [1] 0)) (F32Array (NdArray.const [1, 1] 0))
      = .panic ∧
    CpuArray.matmul (F32Array (NdArray.const [2] 0)) (F32Array (NdArray.const [3] 0))
      = .panic :=
  ⟨rfl, rfl⟩

/-- Claim C6 (divergence witness): sum with a reduction axis at or beyond
the rank panics inside sum_axis instead of returning an AxisOutOfRange
error: here a rank-1 array summed over axis 5. -/
theorem sum_axis_out_of_range_panics :
    CpuArray.sum (F32Array (NdArray.const [2] 1)) [5] = .panic :=
  rfl

/-- Claim C9 (counterexample): transpose does not succeed on every dtype —
on an F64 array it returns an error, so the claim as stated (either dtype)
fails at the F64 array of shape [1]. -/
theorem transpose_f64_errors :
    CpuArray.transpose (F64Array (NdArray.const [1] 0))
      = .error "Cannot exp for the provided data types" :=
  rfl

/-- Claim C9 (amended): for every F32 array, transpose succeeds, the
resulting shape is the reverse of the original shape, and transposing twice
gives back the original array. -/
theorem transpose_f32_involution (nd : NdArray) :
    CpuArray.transpose (F32Array nd) = Except.ok (F32Array nd.transposeNd) ∧
    nd.transposeNd.shape = nd.shape.reverse ∧
    nd.transposeNd.transposeNd = nd := by
  refine ⟨rfl, rfl, ?_⟩
  obtain ⟨s, d⟩ := nd
  simp only [NdArray.transposeNd, List.reverse_reverse, NdArray.mk.injEq]

/-- Claim C1 (counterexample): the elementwise kernels do not succeed on a
same-dtype, same-shape F64 pair — all four return None at the F64 arrays of
shape [1]. -/
theorem elementwise_f64_returns_none :
    CpuArray.add (F64Array (NdArray.const [1] 0)) (F64Array (NdArray.const [1] 0)) = .ok none ∧
    CpuArray.sub (F64Array (NdArray.const [1] 0)) (F64Array (NdArray.const [1] 0)) = .ok none ∧
    CpuArray.mul (F64Array (NdArray.const [1] 0)) (F64Array (NdArray.const [1] 0)) = .ok none ∧
    CpuArray.div (F64Array (NdArray.const [1] 0)) (F64Array (NdArray.const [1] 0)) = .ok none :=
  ⟨rfl, rfl, rfl, rfl⟩

/-- Claim C1 (amended): for two F32 CpuArrays of the same shape, each of
add, sub, mul, div returns Some of a fresh elementwise result whose dtype
is F32 (the common dtype) and whose shape equals the left operand's shape. -/
theorem elementwise_f32_ok (a b : NdArray) (h : a.shape = b.shape) :
    CpuArray.add (F32Array a) (F32Array b)
      = .ok (some (F32Array (NdArray.zipApply (· + ·) a b))) ∧
    CpuArray.sub (F32Array a) (F32Array b)
      = .ok (some (F32Array (NdArray.zipApply (· - ·) a b))) ∧
    CpuArray.mul (F32Array a) (F32Array b)
      = .ok (some (F32Array (NdArray.zipApply (· * ·) a b))) ∧
    CpuArray.div (F32Array a) (F32Array b)
      = .ok (some (F32Array (NdArray.zipApply (· / ·) a b))) ∧
    (NdArray.zipApply (· + ·) a b).shape = a.shape := by
  refine ⟨?_, ?_, ?_, ?_, rfl⟩ <;>
    simp [CpuArray.add, CpuArray.sub, CpuArray.mul, CpuArray.div, CpuArray.binOp, h]

/-- Witness for the amended Claim C1 at two concrete shape-[1] arrays. -/
theorem elementwise_f32_ok_witness :
    (NdArray.const [1] (2:ℚ)).shape = (NdArray.const [1] (3:ℚ)).shape ∧
    (CpuArray.add (F32Array (NdArray.const [1] 2)) (F32Array (NdArray.const [1] 3))
      = .ok (some (F32Array (NdArray.zipApply (· + ·) (NdArray.const [1] 2) (NdArray.const [1] 3)))) ∧
    CpuArray.sub (F32Array (NdArray.const [1] 2)) (F32Array (NdArray.const [1] 3))
      = .ok (some (F32Array (NdArray.zipApply (· - ·) (NdArray.const [1] 2) (NdArray.const [1] 3)))) ∧
    CpuArray.mul (F32Array (NdArray.const [1] 2)) (F32Array (NdArray.const [1] 3))
      = .ok (some (F32Array (NdArray.zipApply (· * ·) (NdArray.const [1] 2) (NdArray.const [1] 3)))) ∧
    CpuArray.div (F32Array (NdArray.const [1] 2)) (F32Array (NdArray.const [1] 3))
      = .ok (some (F32Array (NdArray.zipApply (· / ·) (NdArray.const [1] 2) (NdArray.const [1] 3)))) ∧
    (NdArray.zipApply (· + ·) (NdArray.const [1] (2:ℚ)) (NdArray.const [1] (3:ℚ))).shape
      = (NdArray.const [1] (2:ℚ)).shape) :=
  ⟨rfl, elementwise_f32_ok (NdArray.const [1] 2) (NdArray.const [1] 3) rfl⟩

/-- The enumerate-then-saturating-subtract step of CpuArray::sum computes
the recursive position shift. -/
theorem enumFrom_map_sub (xs : List Nat) : ∀ i : Nat,
    (List.enumFrom i xs).map (fun p => p.2 - p.1) = shiftFrom i xs := by
  induction xs with
  | nil => intro i; rfl
  | cons x xs ih => intro i; simp [List.enumFrom, shiftFrom, ih]

/-- Specialisation to enumerate-from-zero. -/
theorem enum_map_sub (xs : List Nat) :
    xs.enum.map (fun p => p.2 - p.1) = shiftFrom 0 xs :=
  enumFrom_map_sub xs 0

/-- Reducing along an in-range axis removes exactly one axis. -/
theorem sumAxis_rank (a : NdArray) (k : Nat) (h : k < a.shape.length) :
    (a.sumAxis k).shape.length = a.shape.length - 1 := by
  simp [NdArray.sumAxis, List.length_eraseIdx, h]

/-- The reduction loop of CpuArray::sum run on the position-shifted form of
a strictly ascending axis list whose entries, relative to offset `i`, all
name axes of `a`: it never hits the panic arm and removes one axis per
listed entry. -/
theorem sumLoop_rank (as : List Nat) : ∀ (i : Nat) (a : NdArray),
    List.Sorted (· < ·) as →
    (∀ x ∈ as, i ≤ x) →
    (∀ x ∈ as, x < i + a.shape.length) →
    ∃ b, sumLoop a (shiftFrom i as) = .ok b ∧
      b.shape.length + as.length = a.shape.length := by
  induction as with
  | nil =>
      intro i a _ _ _
      exact ⟨a, rfl, by simp⟩
  | cons x xs ih =>
      intro i a hsorted hge hlt
      have hxi : i ≤ x := hge x (List.mem_cons_self x xs)
      have hxlt : x < i + a.shape.length := hlt x (List.mem_cons_self x xs)
      have hk : x - i < a.shape.length := by omega
      have hrank := sumAxis_rank a (x - i) hk
      have hsc := List.sorted_cons.mp hsorted
      obtain ⟨b, hb, hlen⟩ := ih (i + 1) (a.sumAxis (x - i)) hsc.2
        (fun y hy => by have := hsc.1 y hy; omega)
        (fun y hy => by
          have h1 := hlt y (List.mem_cons_of_mem x hy)
          rw [hrank]
          omega)
      refine ⟨b, ?_, ?_⟩
      · simp only [shiftFrom, sumLoop, if_pos hk]
        exact hb
      · rw [hrank] at hlen
        simp only [List.length_cons]
        omega

/-- Claim C3 (counterexample): summing a rank-1 F32 array over its only
axis yields shape [], i.e. rank 0, where the claim predicts rank
max(1, 1 − 1) = 1. -/
theorem sum_all_axes_rank_zero :
    sumShapes (F32Array (NdArray.const [2] 5)) [0] = .ok (.ok []) :=
  rfl

/-- CpuArray::sum on nonempty, duplicate-free, in-range dims: it succeeds
and removes exactly one axis per listed dim. -/
theorem sum_nonempty_rank (nd : NdArray) (d : Nat) (ds : List Nat)
    (hnodup : (d :: ds).Nodup) (hlt : ∀ x ∈ d :: ds, x < nd.shape.length) :
    ∃ b, CpuArray.sum (F32Array nd) (d :: ds) = .ok (.ok (F32Array b)) ∧
      b.shape.length + (d :: ds).length = nd.shape.length := by
  have hperm := List.perm_insertionSort (· ≤ ·) (d :: ds)
  have hsortedle := List.sorted_insertionSort (· ≤ ·) (d :: ds)
  have hnodup2 : (List.insertionSort (· ≤ ·) (d :: ds)).Nodup :=
    hperm.nodup_iff.mpr hnodup
  have hsortedlt := hsortedle.lt_of_le hnodup2
  obtain ⟨b, hb, hlen⟩ := sumLoop_rank (List.insertionSort (· ≤ ·) (d :: ds)) 0 nd
    hsortedlt (fun x _ => Nat.zero_le x)
    (fun x hx => by simpa using hlt x (hperm.mem_iff.mp hx))
  refine ⟨b, ?_, ?_⟩
  · simp only [CpuArray.sum, enum_map_sub, hb, PanicOr.map]
  · rw [hperm.length_eq] at hlen
    exact hlen

/-- Claim C3 (amended): for every F32 array, empty dims give the shape-[1]
full reduction holding the total of all elements; nonempty duplicate-free
in-range dims give a result of rank exactly rank − |dims| (not
max(1, rank − |dims|): reducing over all axes yields rank 0); and the
2×3×4 fill-5 array summed over dims [2,1] has shape [2] with every element
equal to 60. -/
theorem sum_reduction_behaviour (nd : NdArray) (dims : List Nat)
    (hnodup : dims.Nodup)
    (hlt : dims.all (fun x => decide (x < nd.shape.length)) = true)
    (hne : dims ≠ []) :
    CpuArray.sum (F32Array nd) [] = .ok (.ok (F32Array (NdArray.const [1] nd.total))) ∧
    sumRank (F32Array nd) dims = .ok (.ok (nd.shape.length - dims.length)) ∧
    sumShapes (F32Array (NdArray.const [2, 3, 4] 5)) [2, 1] = .ok (.ok [2]) ∧
    ((CpuArray.sum (F32Array (NdArray.const [2, 3, 4] 5)) [2, 1]).map
      (Except.map fun c => c.get [0])) = .ok (.ok (some 60)) ∧
    ((CpuArray.sum (F32Array (NdArray.const [2, 3, 4] 5)) [2, 1]).map
      (Except.map fun c => c.get [1])) = .ok (.ok (some 60)) := by
  obtain ⟨d, ds, rfl⟩ : ∃ d ds, dims = d :: ds := by
    cases dims with
    | nil => exact absurd rfl hne
    | cons d ds => exact ⟨d, ds, rfl⟩
  have hlt2 : ∀ x ∈ d :: ds, x < nd.shape.length := by
    intro x hx
    have := List.all_eq_true.mp hlt x hx
    simpa using this
  obtain ⟨b, hb, hlen⟩ := sum_nonempty_rank nd d ds hnodup hlt2
  have hb2 : b.shape.length = nd.shape.length - (d :: ds).length := by
    simp only [List.length_cons] at hlen ⊢
    omega
  refine ⟨rfl, ?_, rfl, ?_, ?_⟩
  · simp only [sumRank, hb, PanicOr.map, Except.map, CpuArray.shape, hb2]
  all_goals
    norm_num [CpuArray.sum, sumLoop, NdArray.sumAxis, NdArray.const,
      CpuArray.get, NdArray.get, NdArray.isValidIx, PanicOr.map, Except.map,
      List.insertionSort, List.orderedInsert, List.enum, List.enumFrom,
      List.range_succ]

/-- Witness for the amended Claim C3 at the 2×3×4 fill-5 array with dims
[2, 1]. -/
theorem sum_reduction_behaviour_witness :
    ([2, 1] : List Nat).Nodup ∧
    ([2, 1] : List Nat).all
      (fun x => decide (x < (NdArray.const [2, 3, 4] (5:ℚ)).shape.length)) = true ∧
    ([2, 1] : List Nat) ≠ [] ∧
    (CpuArray.sum (F32Array (NdArray.const [2, 3, 4] (5:ℚ))) []
        = .ok (.ok (F32Array (NdArray.const [1] (NdArray.const [2, 3, 4] (5:ℚ)).total))) ∧
      sumRank (F32Array (NdArray.const [2, 3, 4] (5:ℚ))) [2, 1]
        = .ok (.ok ((NdArray.const [2, 3, 4] (5:ℚ)).shape.length - ([2, 1] : List Nat).length)) ∧
      sumShapes (F32Array (NdArray.const [2, 3, 4] 5)) [2, 1] = .ok (.ok [2]) ∧
      ((CpuArray.sum (F32Array (NdArray.const [2, 3, 4] 5)) [2, 1]).map
        (Except.map fun c => c.get [0])) = .ok (.ok (some 60)) ∧
      ((CpuArray.sum (F32Array (NdArray.const [2, 3, 4] 5)) [2, 1]).map
        (Except.map fun c => c.get [1])) = .ok (.ok (some 60))) :=
  ⟨by decide, by decide, by decide,
    sum_reduction_behaviour (NdArray.const [2, 3, 4] 5) [2, 1]
      (by decide) (by decide) (by decide)⟩
